import Mathlib

/-!
Shallow embedding of the wise1738 port scanner core.

The network is abstracted by an explicit environment: per-port address
resolution, per-address connect outcomes, and per-address probe-connection
behavior. Pure functions (service table, OS-hint table, confidence table,
TLS byte literal, port-string parsing) are translated directly from
src/core/scanner.rs, src/core/ports.rs and src/tui/terminal.rs.
-/

/-- TCP reachability status of a scanned port (scanner.rs, PortStatus). -/
inductive PortStatus
  | Open
  | Closed
  | Filtered
deriving DecidableEq, Repr

/-- One scan outcome row (scanner.rs, ScanResult). -/
structure ScanResult where
  port : Nat
  status : PortStatus
  service : String
  os_hint : Option String
  confidence : Nat
deriving DecidableEq, Repr

/-- Outcome of one timeout-bounded connection attempt (scanner.rs, TcpResult). -/
inductive TcpResult
  | Open
  | Refused
  | Timeout
deriving DecidableEq, Repr

/-- Peer behavior on one probe connection: whether the second connect
succeeds, and the bytes landing in the probe read buffer (none models a
failed or timed-out read). -/
structure ProbeEnv where
  connectOk : Bool
  read : Option (List Nat)
deriving DecidableEq, Repr

/-- Abstract network environment for one host: per-port address resolution,
per-(port, address) connect outcome, per-(port, address) probe behavior. -/
structure NetEnv where
  resolve : Nat → Option (List Nat)
  connect : Nat → Nat → TcpResult
  probe : Nat → Nat → ProbeEnv

/-- Static port → fallback service table (scanner.rs, service_name). -/
def service_name (port : Nat) : String :=
  if 1 ≤ port ∧ port ≤ 19 then "system"
  else if port = 20 ∨ port = 21 then "FTP"
  else if port = 22 then "SSH"
  else if port = 23 then "TELNET"
  else if port = 25 then "SMTP"
  else if port = 53 then "DNS"
  else if port = 80 then "HTTP"
  else if port = 110 then "POP3"
  else if port = 143 then "IMAP"
  else if port = 443 then "HTTPS"
  else if port = 445 then "SMB"
  else if port = 3306 then "MYSQL"
  else if port = 3389 then "RDP"
  else if port = 5432 then "POSTGRES"
  else if port = 6379 then "REDIS"
  else if port = 8080 then "HTTP-ALT"
  else "unknown"

/-- OS hint table (scanner.rs, os_detect_signal): exact (port, service) pairs. -/
def os_detect_signal (port : Nat) (service : String) : Option String :=
  if (port = 445 ∧ service = "SMB") ∨ (port = 3389 ∧ service = "RDP") then some "Windows"
  else if port = 22 ∧ service = "SSH" then some "Unix-like"
  else if (port = 80 ∧ service = "HTTP") ∨ (port = 443 ∧ service = "HTTPS") then some "Unix-like"
  else none

/-- Confidence table (scanner.rs, confidence_score). -/
def confidence_score (service : String) (os : Option String) : Nat :=
  if service = "SSH" ∧ os.isSome then 95
  else if service = "HTTP" ∧ os.isSome then 90
  else if service = "HTTPS" ∧ os.isSome then 90
  else if service = "RDP" ∧ os = some "Windows" then 95
  else if service = "SMTP" then 85
  else if service = "MYSQL" then 85
  else if service = "unknown" then 30
  else 60

/-- The four bytes of the literal SSH- banner compared by ssh_probe. -/
def sshBanner : List Nat := [0x53, 0x53, 0x48, 0x2d]

/-- http_probe (scanner.rs): connect, send HEAD, success iff the read is ok. -/
def http_probe (e : ProbeEnv) : Bool := e.connectOk && e.read.isSome

/-- tls_probe (scanner.rs): connect, send ClientHello, success iff the read is ok. -/
def tls_probe (e : ProbeEnv) : Bool := e.connectOk && e.read.isSome

/-- ssh_probe (scanner.rs): connect, read 4 bytes, success iff the buffer equals SSH- . -/
def ssh_probe (e : ProbeEnv) : Bool :=
  e.connectOk &&
    match e.read with
    | some buf => buf == sshBanner
    | none => false

/-- smtp_probe (scanner.rs): connect, read, success iff the read is ok. -/
def smtp_probe (e : ProbeEnv) : Bool := e.connectOk && e.read.isSome

/-- mysql_probe (scanner.rs): connect, read, success iff the read is ok. -/
def mysql_probe (e : ProbeEnv) : Bool := e.connectOk && e.read.isSome

/-- rdp_probe (scanner.rs): connect, read, success iff the read is ok. -/
def rdp_probe (e : ProbeEnv) : Bool := e.connectOk && e.read.isSome

/-- protocol_probe (scanner.rs): probe selection keyed purely by port number. -/
def protocol_probe (port : Nat) (e : ProbeEnv) : Option String :=
  if port = 80 ∨ port = 8080 ∨ port = 8000 then
    if http_probe e then some "HTTP" else none
  else if port = 443 ∨ port = 8443 then
    if tls_probe e then some "HTTPS" else none
  else if port = 22 then
    if ssh_probe e then some "SSH" else none
  else if port = 25 then
    if smtp_probe e then some "SMTP" else none
  else if port = 3306 then
    if mysql_probe e then some "MYSQL" else none
  else if port = 3389 then
    if rdp_probe e then some "RDP" else none
  else none

/-- The record built by the Open branch of the per-address loop in scan_single. -/
def openResult (env : NetEnv) (port : Nat) (fb : String) (a : Nat) : ScanResult :=
  let service := (protocol_probe port (env.probe port a)).getD fb
  let os := os_detect_signal port service
  ⟨port, PortStatus.Open, service, os, confidence_score service os⟩

/-- The per-address loop of scan_single (scanner.rs lines 90-122): Open
short-circuits, Timeout sets the saw_timeout flag, Refused is skipped. -/
def scanLoop (env : NetEnv) (port : Nat) (fb : String) : List Nat → Bool → ScanResult
  | [], sawTimeout =>
      ⟨port, if sawTimeout then PortStatus.Filtered else PortStatus.Closed, fb, none, 0⟩
  | a :: rest, sawTimeout =>
      match env.connect port a with
      | TcpResult.Open => openResult env port fb a
      | TcpResult.Timeout => scanLoop env port fb rest true
      | TcpResult.Refused => scanLoop env port fb rest sawTimeout

/-- scan_single (scanner.rs): resolve, classify each address, fall back. -/
def scan_single (env : NetEnv) (port : Nat) : ScanResult :=
  match env.resolve port with
  | none => ⟨port, PortStatus.Filtered, service_name port, none, 0⟩
  | some addrs => scanLoop env port (service_name port) addrs false

/-- Comparison key used by the final sort of scan (sort_by_key on port). -/
def byPort (a b : ScanResult) : Prop := a.port ≤ b.port

instance : DecidableRel byPort := fun a b => Nat.decLe a.port b.port

instance : IsTotal ScanResult byPort := ⟨fun a b => Nat.le_total a.port b.port⟩

instance : IsTrans ScanResult byPort := ⟨fun _ _ _ h h2 => Nat.le_trans h h2⟩

/-- The multiset of per-port results produced by the workers, in submission
order; the channel may deliver any permutation of this list. -/
def scanResults (env : NetEnv) (ports : List Nat) : List ScanResult :=
  ports.map (scan_single env)

/-- scan (scanner.rs): per-port results, collected and sorted ascending by port. -/
def scan (env : NetEnv) (ports : List Nat) : List ScanResult :=
  (scanResults env ports).insertionSort byPort

/-- tls_client_hello (scanner.rs): the fixed ClientHello byte literal. -/
def tls_client_hello : List Nat :=
  [0x16, 0x03, 0x01, 0x00, 0x4f,
   0x01, 0x00, 0x00, 0x4b,
   0x03, 0x03,
   0x53, 0x43, 0x4f, 0x52, 0x45, 0x00, 0x01, 0x02,
   0x03, 0x04, 0x05, 0x06, 0x07, 0x08, 0x09, 0x0a,
   0x0b, 0x0c, 0x0d, 0x0e, 0x0f, 0x10, 0x11, 0x12,
   0x13, 0x14, 0x15, 0x16, 0x17, 0x18, 0x19, 0x1a,
   0x00,
   0x00, 0x06, 0x00, 0x2f, 0x00, 0x35, 0x00, 0x0a,
   0x01, 0x00,
   0x00, 0x0d, 0x00, 0x0a, 0x00, 0x04, 0x00, 0x02, 0x00, 0x17,
   0x00, 0x0b, 0x00, 0x02, 0x01, 0x00]

/-- Ports::single (ports.rs). -/
def Ports.single (p : Nat) : List Nat := [p]

/-- Ports::multiple (ports.rs). -/
def Ports.multiple (l : List Nat) : List Nat := l

/-- Ports::range (ports.rs): inclusive, auto-swapped when reversed. -/
def Ports.range (a b : Nat) : List Nat :=
  if a ≤ b then List.range' a (b - a + 1) else List.range' b (a - b + 1)

/-- Rust u16::from_str: optional leading plus sign, one or more ASCII
digits, value at most 65535. -/
def parseU16 (s : List Char) : Option Nat :=
  let digits := if s.head? = some '+' then s.tail else s
  if digits.isEmpty then none
  else if digits.all Char.isDigit then
    let n := digits.foldl (fun acc c => acc * 10 + (c.toNat - 48)) 0
    if n ≤ 65535 then some n else none
  else none

/-- Rust str::split on a single-character pattern, over the character list. -/
def splitChar (c : Char) : List Char → List (List Char)
  | [] => [[]]
  | x :: xs =>
    if x = c then [] :: splitChar c xs
    else
      match splitChar c xs with
      | [] => [[x]]
      | h :: t => (x :: h) :: t

/-- Rust collect over an iterator of Option, failing if any piece fails. -/
def collectPorts : List (List Char) → Option (List Nat)
  | [] => some []
  | p :: ps =>
    match parseU16 p, collectPorts ps with
    | some n, some ns => some (n :: ns)
    | _, _ => none

/-- Value of a Rust expression that can also panic (models slice indexing). -/
inductive PanicOr (α : Type)
  | panic
  | ok (val : α)
deriving DecidableEq, Repr

/-- parse_ports (terminal.rs): comma branch, else dash branch (split on
every dash, raw indexing of parts 0 and 1 in evaluation order), else single. -/
def parse_ports (raw : List Char) : PanicOr (Option (List Nat)) :=
  if ',' ∈ raw then
    PanicOr.ok ((collectPorts (splitChar ',' raw)).map Ports.multiple)
  else if '-' ∈ raw then
    let p := splitChar '-' raw
    match p[0]? with
    | none => PanicOr.panic
    | some a =>
      match parseU16 a with
      | none => PanicOr.ok none
      | some x =>
        match p[1]? with
        | none => PanicOr.panic
        | some b => PanicOr.ok ((parseU16 b).map (fun y => Ports.range x y))
  else
    PanicOr.ok ((parseU16 raw).map Ports.single)

/-- Character list of a string literal. -/
def chars (s : String) : List Char := s.toList

/-- Environment where address resolution always fails. -/
def envNoResolve : NetEnv :=
  ⟨fun _ => none, fun _ _ => TcpResult.Refused, fun _ _ => ⟨false, none⟩⟩

/-- Environment: one address, connects, peer sends the SSH banner on the probe. -/
def envSSH : NetEnv :=
  ⟨fun _ => some [0], fun _ _ => TcpResult.Open, fun _ _ => ⟨true, some sshBanner⟩⟩

/-- Environment: one address, connects, peer silent on the probe connection. -/
def envSilent : NetEnv :=
  ⟨fun _ => some [0], fun _ _ => TcpResult.Open, fun _ _ => ⟨true, none⟩⟩

/-- Environment: resolution yields an empty address list. -/
def envEmpty : NetEnv :=
  ⟨fun _ => some [], fun _ _ => TcpResult.Refused, fun _ _ => ⟨false, none⟩⟩

/-- Environment: two addresses; the first refuses, the second times out. -/
def envMixed : NetEnv :=
  ⟨fun _ => some [0, 1],
   fun _ a => if a = 0 then TcpResult.Refused else TcpResult.Timeout,
   fun _ _ => ⟨false, none⟩⟩

/-! ### Helper lemmas: heuristic tables -/

theorem ite_str_ne (c : Prop) [Decidable c] (a b : String) (ha : a ≠ "") (hb : b ≠ "") :
    (if c then a else b) ≠ "" := by
  by_cases h : c
  · rwa [if_pos h]
  · rwa [if_neg h]

theorem service_name_ne_empty (port : Nat) : service_name port ≠ "" := by
  unfold service_name
  repeat' apply ite_str_ne
  all_goals decide

theorem confidence_score_le (service : String) (os : Option String) :
    confidence_score service os ≤ 100 := by
  unfold confidence_score
  split_ifs <;> omega

theorem confidence_score_none_default (s : String)
    (h1 : s ≠ "SMTP") (h2 : s ≠ "MYSQL") (h3 : s ≠ "unknown") :
    confidence_score s none = 60 := by
  unfold confidence_score
  simp [h1, h2, h3]

theorem protocol_probe_ne_empty (port : Nat) (e : ProbeEnv) (s : String)
    (h : protocol_probe port e = some s) : s ≠ "" := by
  unfold protocol_probe at h
  split_ifs at h <;> (injection h with h2; subst h2; decide)

theorem protocol_probe_silent (port : Nat) (e : ProbeEnv) (h : e.read = none) :
    protocol_probe port e = none := by
  unfold protocol_probe http_probe tls_probe ssh_probe smtp_probe mysql_probe rdp_probe
  rw [h]
  simp

/-! ### Helper lemmas: the per-address loop -/

theorem scanLoop_nil (env : NetEnv) (port : Nat) (fb : String) (s : Bool) :
    scanLoop env port fb [] s =
      ⟨port, if s then PortStatus.Filtered else PortStatus.Closed, fb, none, 0⟩ := rfl

theorem scanLoop_cons (env : NetEnv) (port : Nat) (fb : String) (a : Nat) (rest : List Nat)
    (s : Bool) :
    scanLoop env port fb (a :: rest) s =
      match env.connect port a with
      | TcpResult.Open => openResult env port fb a
      | TcpResult.Timeout => scanLoop env port fb rest true
      | TcpResult.Refused => scanLoop env port fb rest s := rfl

theorem scanLoop_port (env : NetEnv) (port : Nat) (fb : String) :
    ∀ (l : List Nat) (s : Bool), (scanLoop env port fb l s).port = port := by
  intro l
  induction l with
  | nil => intro s; rfl
  | cons a rest ih =>
    intro s
    unfold scanLoop
    cases env.connect port a <;> simp [openResult, ih]

theorem scanLoop_flagged (env : NetEnv) (port : Nat) (fb : String) :
    ∀ (l : List Nat), (∀ a ∈ l, env.connect port a ≠ TcpResult.Open) →
      scanLoop env port fb l true = ⟨port, PortStatus.Filtered, fb, none, 0⟩ := by
  intro l
  induction l with
  | nil => intro _; rfl
  | cons a rest ih =>
    intro h
    unfold scanLoop
    cases hc : env.connect port a with
    | Open => exact absurd hc (h a (List.mem_cons_self a rest))
    | Timeout => exact ih fun b hb => h b (List.mem_cons_of_mem a hb)
    | Refused => exact ih fun b hb => h b (List.mem_cons_of_mem a hb)

theorem scanLoop_timeout (env : NetEnv) (port : Nat) (fb : String) :
    ∀ (l : List Nat) (s : Bool), (∀ a ∈ l, env.connect port a ≠ TcpResult.Open) →
      (∃ a ∈ l, env.connect port a = TcpResult.Timeout) →
      scanLoop env port fb l s = ⟨port, PortStatus.Filtered, fb, none, 0⟩ := by
  intro l
  induction l with
  | nil => intro s _ hex; exact absurd hex (by simp)
  | cons a rest ih =>
    intro s h hex
    unfold scanLoop
    cases hc : env.connect port a with
    | Open => exact absurd hc (h a (List.mem_cons_self a rest))
    | Timeout => exact scanLoop_flagged env port fb rest fun b hb => h b (List.mem_cons_of_mem a hb)
    | Refused =>
      refine ih s (fun b hb => h b (List.mem_cons_of_mem a hb)) ?_
      rcases hex with ⟨x, hx, hxt⟩
      rcases List.mem_cons.mp hx with rfl | hx2
      · rw [hc] at hxt; cases hxt
      · exact ⟨x, hx2, hxt⟩

theorem scanLoop_refused (env : NetEnv) (port : Nat) (fb : String) :
    ∀ (l : List Nat) (s : Bool), (∀ a ∈ l, env.connect port a = TcpResult.Refused) →
      scanLoop env port fb l s =
        ⟨port, if s then PortStatus.Filtered else PortStatus.Closed, fb, none, 0⟩ := by
  intro l
  induction l with
  | nil => intro s _; rfl
  | cons a rest ih =>
    intro s h
    unfold scanLoop
    rw [h a (List.mem_cons_self a rest)]
    exact ih s fun b hb => h b (List.mem_cons_of_mem a hb)

theorem scanLoop_first_open (env : NetEnv) (port : Nat) (fb : String) :
    ∀ (pre : List Nat) (a : Nat) (post : List Nat) (s : Bool),
      (∀ b ∈ pre, env.connect port b ≠ TcpResult.Open) →
      env.connect port a = TcpResult.Open →
      scanLoop env port fb (pre ++ a :: post) s = openResult env port fb a := by
  intro pre
  induction pre with
  | nil =>
    intro a post s _ ha
    rw [List.nil_append, scanLoop_cons, ha]
  | cons b pre ih =>
    intro a post s h ha
    rw [List.cons_append]
    unfold scanLoop
    cases hc : env.connect port b with
    | Open => exact absurd hc (h b (List.mem_cons_self b pre))
    | Timeout => exact ih a post true (fun x hx => h x (List.mem_cons_of_mem b hx)) ha
    | Refused => exact ih a post s (fun x hx => h x (List.mem_cons_of_mem b hx)) ha

theorem scanLoop_open_status (env : NetEnv) (port : Nat) (fb : String) :
    ∀ (l : List Nat) (s : Bool), (∃ a ∈ l, env.connect port a = TcpResult.Open) →
      (scanLoop env port fb l s).status = PortStatus.Open := by
  intro l
  induction l with
  | nil => intro s hex; exact absurd hex (by simp)
  | cons a rest ih =>
    intro s hex
    unfold scanLoop
    cases hc : env.connect port a with
    | Open => rfl
    | Timeout =>
      refine ih true ?_
      rcases hex with ⟨x, hx, hxo⟩
      rcases List.mem_cons.mp hx with rfl | hx2
      · rw [hc] at hxo; cases hxo
      · exact ⟨x, hx2, hxo⟩
    | Refused =>
      refine ih s ?_
      rcases hex with ⟨x, hx, hxo⟩
      rcases List.mem_cons.mp hx with rfl | hx2
      · rw [hc] at hxo; cases hxo
      · exact ⟨x, hx2, hxo⟩

theorem scanLoop_confidence_le (env : NetEnv) (port : Nat) (fb : String) :
    ∀ (l : List Nat) (s : Bool), (scanLoop env port fb l s).confidence ≤ 100 := by
  intro l
  induction l with
  | nil => intro s; exact Nat.zero_le 100
  | cons a rest ih =>
    intro s
    unfold scanLoop
    cases env.connect port a with
    | Open => exact confidence_score_le _ _
    | Timeout => exact ih true
    | Refused => exact ih s

theorem scanLoop_service_ne_empty (env : NetEnv) (port : Nat) (fb : String) (hfb : fb ≠ "") :
    ∀ (l : List Nat) (s : Bool), (scanLoop env port fb l s).service ≠ "" := by
  intro l
  induction l with
  | nil => intro s; exact hfb
  | cons a rest ih =>
    intro s
    unfold scanLoop
    cases env.connect port a with
    | Open =>
      show (protocol_probe port (env.probe port a)).getD fb ≠ ""
      cases hp : protocol_probe port (env.probe port a) with
      | none => simpa using hfb
      | some srv => simpa using protocol_probe_ne_empty port _ srv hp
    | Timeout => exact ih true
    | Refused => exact ih s

/-! ### Helper lemmas: scan_single and scan -/

theorem scan_single_port (env : NetEnv) (p : Nat) : (scan_single env p).port = p := by
  unfold scan_single
  cases env.resolve p with
  | none => rfl
  | some addrs => exact scanLoop_port env p (service_name p) addrs false

theorem scan_single_confidence_le (env : NetEnv) (p : Nat) :
    (scan_single env p).confidence ≤ 100 := by
  unfold scan_single
  cases env.resolve p with
  | none => exact Nat.zero_le 100
  | some addrs => exact scanLoop_confidence_le env p (service_name p) addrs false

theorem scan_single_service_ne_empty (env : NetEnv) (p : Nat) :
    (scan_single env p).service ≠ "" := by
  unfold scan_single
  cases env.resolve p with
  | none => exact service_name_ne_empty p
  | some addrs =>
    exact scanLoop_service_ne_empty env p (service_name p) (service_name_ne_empty p) addrs false

theorem scanResults_ports (env : NetEnv) (ports : List Nat) :
    (scanResults env ports).map ScanResult.port = ports := by
  unfold scanResults
  rw [List.map_map]
  exact List.map_congr_left (fun p _ => scan_single_port env p) |>.trans (List.map_id ports)

/-! ### Helper lemmas: string splitting and number parsing -/

theorem splitChar_cons (c x : Char) (xs : List Char) :
    splitChar c (x :: xs) =
      if x = c then [] :: splitChar c xs
      else
        match splitChar c xs with
        | [] => [[x]]
        | h :: t => (x :: h) :: t := rfl

theorem splitChar_ne_nil (c : Char) : ∀ (l : List Char), splitChar c l ≠ [] := by
  intro l
  cases l with
  | nil => simp [splitChar]
  | cons x xs =>
    unfold splitChar
    split_ifs
    · simp
    · cases splitChar c xs <;> simp

theorem splitChar_length (c : Char) : ∀ (l : List Char), c ∈ l → 2 ≤ (splitChar c l).length := by
  intro l
  induction l with
  | nil => intro h; cases h
  | cons x xs ih =>
    intro h
    unfold splitChar
    split_ifs with hx
    · have h1 := splitChar_ne_nil c xs
      cases hsp : splitChar c xs with
      | nil => exact absurd hsp h1
      | cons p ps => simp
    · have hmem : c ∈ xs := by
        rcases List.mem_cons.mp h with rfl | h2
        · exact absurd rfl hx
        · exact h2
      have h2 := ih hmem
      cases hsp : splitChar c xs with
      | nil => exact absurd hsp (splitChar_ne_nil c xs)
      | cons p ps =>
        rw [hsp] at h2
        simpa using h2

theorem splitChar_subset (c : Char) :
    ∀ (l : List Char) (p : List Char), p ∈ splitChar c l → ∀ y ∈ p, y ∈ l := by
  intro l
  induction l with
  | nil =>
    intro p hp y hy
    simp [splitChar] at hp
    subst hp
    cases hy
  | cons x xs ih =>
    intro p hp y hy
    unfold splitChar at hp
    split_ifs at hp with hx
    · rcases List.mem_cons.mp hp with rfl | hp2
      · cases hy
      · exact List.mem_cons_of_mem x (ih p hp2 y hy)
    · cases hsp : splitChar c xs with
      | nil => exact absurd hsp (splitChar_ne_nil c xs)
      | cons q qs =>
        rw [hsp] at hp
        rcases List.mem_cons.mp hp with rfl | hp2
        · rcases List.mem_cons.mp hy with rfl | hy2
          · exact List.mem_cons_self y xs
          · exact List.mem_cons_of_mem x (ih q (by rw [hsp]; exact List.mem_cons_self q qs) y hy2)
        · exact List.mem_cons_of_mem x (ih p (by rw [hsp]; exact List.mem_cons_of_mem q hp2) y hy)

theorem splitChar_not_mem (c : Char) :
    ∀ (l : List Char) (p : List Char), p ∈ splitChar c l → c ∉ p := by
  intro l
  induction l with
  | nil =>
    intro p hp
    simp [splitChar] at hp
    subst hp
    simp
  | cons x xs ih =>
    intro p hp
    unfold splitChar at hp
    split_ifs at hp with hx
    · rcases List.mem_cons.mp hp with rfl | hp2
      · simp
      · exact ih p hp2
    · cases hsp : splitChar c xs with
      | nil => exact absurd hsp (splitChar_ne_nil c xs)
      | cons q qs =>
        rw [hsp] at hp
        rcases List.mem_cons.mp hp with rfl | hp2
        · intro hcy
          rcases List.mem_cons.mp hcy with rfl | hcy2
          · exact hx rfl
          · exact ih q (by rw [hsp]; exact List.mem_cons_self q qs) hcy2
        · exact ih p (by rw [hsp]; exact List.mem_cons_of_mem q hp2)

theorem splitChar_mem_piece (c : Char) :
    ∀ (l : List Char) (x : Char), x ∈ l → x ≠ c → ∃ p ∈ splitChar c l, x ∈ p := by
  intro l
  induction l with
  | nil => intro x hx; cases hx
  | cons y ys ih =>
    intro x hx hxc
    unfold splitChar
    split_ifs with hy
    · subst hy
      have hx2 : x ∈ ys := by
        rcases List.mem_cons.mp hx with rfl | h2
        · exact absurd rfl hxc
        · exact h2
      rcases ih x hx2 hxc with ⟨p, hp, hxp⟩
      exact ⟨p, List.mem_cons_of_mem [] hp, hxp⟩
    · cases hsp : splitChar c ys with
      | nil => exact absurd hsp (splitChar_ne_nil c ys)
      | cons q qs =>
        rcases List.mem_cons.mp hx with rfl | hx2
        · exact ⟨x :: q, List.mem_cons_self _ qs, List.mem_cons_self x q⟩
        · rcases ih x hx2 hxc with ⟨p, hp, hxp⟩
          rw [hsp] at hp
          rcases List.mem_cons.mp hp with rfl | hp2
          · exact ⟨y :: p, List.mem_cons_self _ qs, List.mem_cons_of_mem y hxp⟩
          · exact ⟨p, List.mem_cons_of_mem (y :: q) hp2, hxp⟩

theorem splitChar_append (c : Char) :
    ∀ (a b : List Char), c ∉ a → splitChar c (a ++ c :: b) = a :: splitChar c b := by
  intro a
  induction a with
  | nil =>
    intro b _
    rw [List.nil_append, splitChar_cons, if_pos rfl]
  | cons x a ih =>
    intro b hc
    have hxc : ¬ x = c := fun h => hc (h ▸ List.mem_cons_self x a)
    rw [List.cons_append, splitChar_cons, if_neg hxc,
      ih b (fun h => hc (List.mem_cons_of_mem x h))]

theorem splitChar_no_occurrence (c : Char) :
    ∀ (b : List Char), c ∉ b → splitChar c b = [b] := by
  intro b
  induction b with
  | nil => intro _; rfl
  | cons x xs ih =>
    intro hc
    have hxc : ¬ x = c := fun h => hc (h ▸ List.mem_cons_self x xs)
    rw [splitChar_cons, if_neg hxc, ih (fun h => hc (List.mem_cons_of_mem x h))]

theorem parseU16_dash (s : List Char) (h : '-' ∈ s) : parseU16 s = none := by
  unfold parseU16
  have hdash : ∀ (d : List Char), '-' ∈ d → (if d.isEmpty then none
      else if d.all Char.isDigit then
        (if (d.foldl (fun acc cc => acc * 10 + (cc.toNat - 48)) 0) ≤ 65535 then
          some (d.foldl (fun acc cc => acc * 10 + (cc.toNat - 48)) 0) else none)
      else none) = (none : Option Nat) := by
    intro d hd
    have hne : d.isEmpty = false := by
      cases d with
      | nil => cases hd
      | cons x xs => rfl
    have hall : d.all Char.isDigit = false := by
      rw [List.all_eq_false]
      exact ⟨'-', hd, by decide⟩
    rw [hne, hall]
    simp
  split_ifs with hplus
  · refine hdash s.tail ?_
    cases s with
    | nil => cases h
    | cons x xs =>
      simp only [List.head?] at hplus
      have hx : x = '+' := by simpa using hplus
      subst hx
      rcases List.mem_cons.mp h with hh | h2
      · cases hh
      · exact h2
  · exact hdash s h

theorem collectPorts_none (ps : List (List Char)) (p : List Char) (hp : p ∈ ps)
    (hfail : parseU16 p = none) : collectPorts ps = none := by
  induction ps with
  | nil => cases hp
  | cons q qs ih =>
    unfold collectPorts
    rcases List.mem_cons.mp hp with rfl | hp2
    · rw [hfail]
    · rw [ih hp2]
      try cases parseU16 q <;> rfl

/-! ### Claim theorems -/

/-- C1: For a scan of one (host, port) pair whose resolution succeeds with at
least one address: if any connection attempt succeeds the status is Open and
the result is fully determined by the first Open address (no later address is
consulted); if no attempt succeeds, the status is Filtered when some attempt
timed out, and Closed when every resolved address refused. -/
theorem scan_single_classification (env : NetEnv) (port : Nat) (addrs : List Nat)
    (hres : env.resolve port = some addrs) (_hne : addrs ≠ []) :
    ((∃ a ∈ addrs, env.connect port a = TcpResult.Open) →
        (scan_single env port).status = PortStatus.Open)
    ∧ ((∀ a ∈ addrs, env.connect port a ≠ TcpResult.Open) →
        (∃ a ∈ addrs, env.connect port a = TcpResult.Timeout) →
        scan_single env port = ⟨port, PortStatus.Filtered, service_name port, none, 0⟩)
    ∧ ((∀ a ∈ addrs, env.connect port a = TcpResult.Refused) →
        scan_single env port = ⟨port, PortStatus.Closed, service_name port, none, 0⟩)
    ∧ (∀ pre a post, addrs = pre ++ a :: post →
        (∀ b ∈ pre, env.connect port b ≠ TcpResult.Open) →
        env.connect port a = TcpResult.Open →
        scan_single env port = openResult env port (service_name port) a) := by
  have hs : scan_single env port = scanLoop env port (service_name port) addrs false := by
    unfold scan_single
    rw [hres]
  refine ⟨?_, ?_, ?_, ?_⟩
  · intro hex
    rw [hs]
    exact scanLoop_open_status env port (service_name port) addrs false hex
  · intro hall hex
    rw [hs]
    exact scanLoop_timeout env port (service_name port) addrs false hall hex
  · intro hall
    rw [hs]
    simpa using scanLoop_refused env port (service_name port) addrs false hall
  · intro pre a post heq hpre ha
    rw [hs, heq]
    exact scanLoop_first_open env port (service_name port) pre a post false hpre ha

/-- C1 witness: two resolved addresses, the first refused, the second timed
out; the pair classifies as Filtered. -/
theorem scan_single_classification_witness :
    scan_single envMixed 80 = ⟨80, PortStatus.Filtered, service_name 80, none, 0⟩ :=
  (scan_single_classification envMixed 80 [0, 1] rfl (by decide)).2.1 (by decide) (by decide)

/-- C7: when address resolution fails, scan_single returns Filtered with
confidence 0, the fallback service and no OS hint, for every connect/probe
behavior (so no connection attempt or probe influences the result). -/
theorem resolve_failure_filtered (env : NetEnv) (port : Nat) (h : env.resolve port = none) :
    scan_single env port = ⟨port, PortStatus.Filtered, service_name port, none, 0⟩ := by
  unfold scan_single
  rw [h]

/-- C7 witness. -/
theorem resolve_failure_filtered_witness :
    scan_single envNoResolve 22 = ⟨22, PortStatus.Filtered, service_name 22, none, 0⟩ :=
  resolve_failure_filtered envNoResolve 22 rfl

/-- C9: when resolution succeeds but yields zero addresses, scan_single
returns Closed (not Filtered) with confidence 0, the fallback service and no
OS hint: the per-address loop never runs and no timeout is recorded. -/
theorem resolve_empty_closed (env : NetEnv) (port : Nat) (h : env.resolve port = some []) :
    scan_single env port = ⟨port, PortStatus.Closed, service_name port, none, 0⟩ := by
  unfold scan_single
  rw [h]
  rfl

/-- C9 witness. -/
theorem resolve_empty_closed_witness :
    scan_single envEmpty 22 = ⟨22, PortStatus.Closed, service_name 22, none, 0⟩ :=
  resolve_empty_closed envEmpty 22 rfl

/-- C8: scanning port 22 where the handshake completes at the first open
address and the probe connection reads the bytes SSH- yields Open, service
SSH, OS hint Unix-like, confidence 95. -/
theorem ssh_banner_result (env : NetEnv) (pre : List Nat) (a : Nat) (post : List Nat)
    (hres : env.resolve 22 = some (pre ++ a :: post))
    (hpre : ∀ b ∈ pre, env.connect 22 b ≠ TcpResult.Open)
    (hopen : env.connect 22 a = TcpResult.Open)
    (hconn : (env.probe 22 a).connectOk = true)
    (hread : (env.probe 22 a).read = some sshBanner) :
    scan_single env 22 = ⟨22, PortStatus.Open, "SSH", some "Unix-like", 95⟩ := by
  have hs : scan_single env 22 = scanLoop env 22 (service_name 22) (pre ++ a :: post) false := by
    unfold scan_single
    rw [hres]
  rw [hs, scanLoop_first_open env 22 (service_name 22) pre a post false hpre hopen]
  have hp : protocol_probe 22 (env.probe 22 a) = some "SSH" := by
    unfold protocol_probe
    norm_num
    unfold ssh_probe
    rw [hread, hconn]
    simp
  unfold openResult
  rw [hp]
  rfl

/-- C8 witness. -/
theorem ssh_banner_result_witness :
    scan_single envSSH 22 = ⟨22, PortStatus.Open, "SSH", some "Unix-like", 95⟩ :=
  ssh_banner_result envSSH [] 0 [] rfl (by simp) rfl rfl rfl

/-- C3 counterexample: a reachable but silent listener on port 22 produces
service SSH with OS hint Unix-like and confidence 95, not the claimed
os_hint = none with confidence 60. -/
theorem silent_probe_defaults_false :
    (scan_single envSilent 22).status = PortStatus.Open
    ∧ (scan_single envSilent 22).service = service_name 22
    ∧ (scan_single envSilent 22).os_hint = some "Unix-like"
    ∧ (scan_single envSilent 22).confidence = 95
    ∧ ¬ ((scan_single envSilent 22).os_hint = none
          ∧ (scan_single envSilent 22).confidence = 60) := by
  decide

/-- C3 (amended): a reachable listener that sends nothing within the probe
window yields status Open with the fallback service name; its OS hint is the
table entry for (port, fallback) and its confidence scores that pair, which
equal none and 60 exactly when the pair has no OS-hint entry and the fallback
is none of SMTP, MYSQL, unknown. -/
theorem silent_probe_fallback (env : NetEnv) (port : Nat) (pre : List Nat) (a : Nat)
    (post : List Nat)
    (hres : env.resolve port = some (pre ++ a :: post))
    (hpre : ∀ b ∈ pre, env.connect port b ≠ TcpResult.Open)
    (hopen : env.connect port a = TcpResult.Open)
    (hread : (env.probe port a).read = none) :
    scan_single env port =
      ⟨port, PortStatus.Open, service_name port,
        os_detect_signal port (service_name port),
        confidence_score (service_name port) (os_detect_signal port (service_name port))⟩
    ∧ (os_detect_signal port (service_name port) = none →
        service_name port ≠ "SMTP" → service_name port ≠ "MYSQL" →
        service_name port ≠ "unknown" →
        (scan_single env port).os_hint = none ∧ (scan_single env port).confidence = 60) := by
  have hs : scan_single env port = openResult env port (service_name port) a := by
    unfold scan_single
    rw [hres]
    exact scanLoop_first_open env port (service_name port) pre a post false hpre hopen
  have hp : protocol_probe port (env.probe port a) = none :=
    protocol_probe_silent port _ hread
  have hmain : scan_single env port =
      ⟨port, PortStatus.Open, service_name port,
        os_detect_signal port (service_name port),
        confidence_score (service_name port) (os_detect_signal port (service_name port))⟩ := by
    rw [hs]
    unfold openResult
    rw [hp]
    rfl
  refine ⟨hmain, ?_⟩
  intro hosn h1 h2 h3
  rw [hmain, hosn]
  exact ⟨rfl, confidence_score_none_default (service_name port) h1 h2 h3⟩

/-- C3 witness for the amended claim: port 21 (fallback FTP) reachable but
silent gives os_hint none and confidence 60. -/
theorem silent_probe_fallback_witness :
    (scan_single envSilent 21).os_hint = none ∧ (scan_single envSilent 21).confidence = 60 :=
  (silent_probe_fallback envSilent 21 [] 0 [] rfl (by simp) rfl rfl).2
    (by decide) (by decide) (by decide) (by decide)

/-- Sorting any delivery order of the per-port results yields ports that are a
permutation of the submitted ports, ascending, and strictly ascending when the
submitted list is duplicate-free. -/
theorem sorted_delivery_ports (env : NetEnv) (ports : List Nat) (collected : List ScanResult)
    (hperm : collected.Perm (scanResults env ports)) :
    ((collected.insertionSort byPort).map ScanResult.port).Perm ports
    ∧ ((collected.insertionSort byPort).map ScanResult.port).Sorted (· ≤ ·)
    ∧ (ports.Nodup →
        ((collected.insertionSort byPort).map ScanResult.port).Sorted (· < ·)) := by
  have hperm2 : (collected.insertionSort byPort).Perm collected :=
    List.perm_insertionSort byPort collected
  have hports : ((collected.insertionSort byPort).map ScanResult.port).Perm ports := by
    have h1 := hperm2.map ScanResult.port
    have h2 := hperm.map ScanResult.port
    rw [scanResults_ports env ports] at h2
    exact h1.trans h2
  have hsorted : ((collected.insertionSort byPort).map ScanResult.port).Sorted (· ≤ ·) := by
    have hs := List.sorted_insertionSort byPort collected
    exact List.pairwise_map.mpr (hs.imp fun h => h)
  refine ⟨hports, hsorted, fun hnd => ?_⟩
  exact hsorted.lt_of_le (hports.nodup_iff.mpr hnd)

/-- C2: for every submitted port list and every delivery order of the per-port
results, the sorted output contains exactly one result per port instance (its
port column is a permutation of the input) in ascending port order, and the
sequence returned by scan is strictly ascending with one result per requested
port whenever the submitted list is duplicate-free. -/
theorem scan_output_ports (env : NetEnv) (ports : List Nat) (collected : List ScanResult)
    (hperm : collected.Perm (scanResults env ports)) :
    ((collected.insertionSort byPort).map ScanResult.port).Perm ports
    ∧ ((collected.insertionSort byPort).map ScanResult.port).Sorted (· ≤ ·)
    ∧ (ports.Nodup →
        ((collected.insertionSort byPort).map ScanResult.port).Sorted (· < ·))
    ∧ ((scan env ports).map ScanResult.port).Perm ports
    ∧ ((scan env ports).map ScanResult.port).Sorted (· ≤ ·)
    ∧ (ports.Nodup → ((scan env ports).map ScanResult.port).Sorted (· < ·)) := by
  rcases sorted_delivery_ports env ports collected hperm with ⟨h1, h2, h3⟩
  rcases sorted_delivery_ports env ports (scanResults env ports) (List.Perm.refl _) with
    ⟨h4, h5, h6⟩
  exact ⟨h1, h2, h3, h4, h5, h6⟩

/-- C2 witness: a two-port scan delivered in reverse order still sorts to the
strictly ascending port column. -/
theorem scan_output_ports_witness :
    ((scan envNoResolve [80, 22]).map ScanResult.port).Sorted (· < ·) :=
  (scan_output_ports envNoResolve [80, 22]
      ((scanResults envNoResolve [80, 22]).reverse) (by decide)).2.2.2.2.2 (by decide)

/-- C6: every result produced by the engine, for any network behavior and any
submitted ports, has confidence at most 100 (hence in [0,100]) and a
non-empty service string. -/
theorem scan_result_invariants (env : NetEnv) (ports : List Nat) (r : ScanResult)
    (hr : r ∈ scan env ports) : r.confidence ≤ 100 ∧ r.service ≠ "" := by
  have hmem : r ∈ scanResults env ports := by
    simpa [scan] using hr
  rcases List.mem_map.mp hmem with ⟨p, _, rfl⟩
  exact ⟨scan_single_confidence_le env p, scan_single_service_ne_empty env p⟩

/-- C6 witness. -/
theorem scan_result_invariants_witness :
    (⟨5, PortStatus.Filtered, "system", none, 0⟩ : ScanResult).confidence ≤ 100
    ∧ (⟨5, PortStatus.Filtered, "system", none, 0⟩ : ScanResult).service ≠ "" :=
  scan_result_invariants envNoResolve [5] ⟨5, PortStatus.Filtered, "system", none, 0⟩
    (by decide)

/-- C10: parse_ports is total and never panics: on the dash branch, the guard
that the string contains a dash guarantees the split has at least two parts,
so the raw index accesses of parts 0 and 1 are in bounds, and every malformed
input yields an ordinary failure value instead of a crash. -/
theorem parse_ports_no_panic (raw : List Char) : ∃ v, parse_ports raw = PanicOr.ok v := by
  unfold parse_ports
  split_ifs with hc hd
  · exact ⟨_, rfl⟩
  · have h2 : 2 ≤ (splitChar '-' raw).length := splitChar_length '-' raw hd
    rcases hsp : splitChar '-' raw with _ | ⟨a, _ | ⟨b, rest⟩⟩
    · rw [hsp] at h2
      simp at h2
    · rw [hsp] at h2
      simp at h2
    · cases hpa : parseU16 a with
      | none => exact ⟨none, by simp [hpa]⟩
      | some x => exact ⟨(parseU16 b).map (fun y => Ports.range x y), by simp [hpa]⟩
  · exact ⟨_, rfl⟩

/-- C10 witness. -/
theorem parse_ports_no_panic_witness : ∃ v, parse_ports (chars "5-") = PanicOr.ok v :=
  parse_ports_no_panic (chars "5-")

/-- C4 counterexample: the input 1-2-3 fits neither claimed shape, yet it does
not fail to parse; the code splits on every dash and silently ignores the
third part, returning range(1,2). -/
theorem parse_ports_extra_parts :
    parse_ports (chars "1-2-3") = PanicOr.ok (some [1, 2])
    ∧ (some [1, 2] : Option (List Nat)) ≠ none := by
  decide

/-- C4 (amended): a string containing a comma parses as a comma-separated
list of individual ports; any string containing both comma and dash fails; a
dash string without comma is split on every dash and only the first two parts
are used as range bounds (parts after a second dash are ignored, so such
strings can still parse); else the string parses as a single port. -/
theorem parse_ports_grammar :
    parse_ports (chars "22") = PanicOr.ok (some [22])
    ∧ parse_ports (chars "20-22") = PanicOr.ok (some [20, 21, 22])
    ∧ parse_ports (chars "22,80,443") = PanicOr.ok (some [22, 80, 443])
    ∧ parse_ports (chars "20-22,80") = PanicOr.ok none
    ∧ (∀ raw : List Char, ',' ∈ raw → '-' ∈ raw → parse_ports raw = PanicOr.ok none)
    ∧ (∀ (raw a b : List Char) (rest : List (List Char)), ',' ∉ raw →
        splitChar '-' raw = a :: b :: rest →
        parse_ports raw = parse_ports (a ++ '-' :: b))
    ∧ (∀ raw : List Char, ',' ∉ raw → '-' ∉ raw →
        parse_ports raw = PanicOr.ok ((parseU16 raw).map Ports.single)) := by
  refine ⟨by decide, by decide, by decide, by decide, ?_, ?_, ?_⟩
  · intro raw hc hd
    unfold parse_ports
    rw [if_pos hc]
    obtain ⟨p, hp, hdp⟩ := splitChar_mem_piece ',' raw '-' hd (by decide)
    rw [collectPorts_none (splitChar ',' raw) p hp (parseU16_dash p hdp)]
    rfl
  · intro raw a b rest hc hsp
    have hd : '-' ∈ raw := by
      by_contra hnd
      rw [splitChar_no_occurrence '-' raw hnd] at hsp
      simp at hsp
    have hamem : a ∈ splitChar '-' raw := by
      rw [hsp]
      exact List.mem_cons_self a _
    have hbmem : b ∈ splitChar '-' raw := by
      rw [hsp]
      exact List.mem_cons_of_mem a (List.mem_cons_self b rest)
    have hna : '-' ∉ a := splitChar_not_mem '-' raw a hamem
    have hnb : '-' ∉ b := splitChar_not_mem '-' raw b hbmem
    have hca : ',' ∉ a := fun h => hc (splitChar_subset '-' raw a hamem ',' h)
    have hcb : ',' ∉ b := fun h => hc (splitChar_subset '-' raw b hbmem ',' h)
    have hcab : ',' ∉ a ++ '-' :: b := by
      intro h
      rcases List.mem_append.mp h with h1 | h2
      · exact hca h1
      · rcases List.mem_cons.mp h2 with h3 | h4
        · exact absurd h3 (by decide)
        · exact hcb h4
    have hdab : '-' ∈ a ++ '-' :: b :=
      List.mem_append.mpr (Or.inr (List.mem_cons_self '-' b))
    have hspab : splitChar '-' (a ++ '-' :: b) = [a, b] := by
      rw [splitChar_append '-' a b hna, splitChar_no_occurrence '-' b hnb]
    unfold parse_ports
    rw [if_neg hc, if_pos hd, if_neg hcab, if_pos hdab]
    simp only [hsp, hspab]
    simp only [List.getElem?_cons_zero, List.getElem?_cons_succ]
  · intro raw hc hd
    unfold parse_ports
    rw [if_neg hc, if_neg hd]

/-- C4 witness for the amended claim: a mixed comma and dash string fails. -/
theorem parse_ports_grammar_witness : parse_ports (chars "1,2-3") = PanicOr.ok none :=
  parse_ports_grammar.2.2.2.2.1 (chars "1,2-3") (by decide) (by decide)

/-- C5 counterexample: each of the three TLS length fields disagrees with the
number of bytes actually following it: the record length field 0x4f precedes
65 payload bytes, the handshake length field 0x4b precedes 61 bytes, and the
extensions length field 0x0d precedes 14 bytes. -/
theorem tls_client_hello_lengths_wrong :
    tls_client_hello.getD 3 0 = 0x00 ∧ tls_client_hello.getD 4 0 = 0x4f
    ∧ (tls_client_hello.drop 5).length = 65 ∧ (0x4f : Nat) ≠ 65
    ∧ tls_client_hello.getD 8 0 = 0x4b ∧ (tls_client_hello.drop 9).length = 61
    ∧ (0x4b : Nat) ≠ 61
    ∧ tls_client_hello.getD 54 0 = 0x00 ∧ tls_client_hello.getD 55 0 = 0x0d
    ∧ (tls_client_hello.drop 56).length = 14 ∧ (0x0d : Nat) ≠ 14 := by
  decide

/-- C5 (amended): the fixed ClientHello literal has the claimed TLS 1.2
ClientHello structure: handshake record type 0x16, handshake type 0x01,
client version 0x0303, a 32-byte random field, a zero-length session id, a
non-zero-length cipher-suite list, a null compression method, and extensions
supported_groups (0x000a) and ec_point_formats (0x000b); however its record
length field does not equal the number of payload bytes following it (nor do
the inner length fields). -/
theorem tls_client_hello_structure :
    tls_client_hello.length = 70
    ∧ tls_client_hello.getD 0 0 = 0x16
    ∧ tls_client_hello.getD 1 0 = 0x03 ∧ tls_client_hello.getD 2 0 = 0x01
    ∧ tls_client_hello.getD 5 0 = 0x01
    ∧ tls_client_hello.getD 9 0 = 0x03 ∧ tls_client_hello.getD 10 0 = 0x03
    ∧ ((tls_client_hello.drop 11).take 32).length = 32
    ∧ tls_client_hello.getD 43 0 = 0x00
    ∧ 256 * tls_client_hello.getD 44 0 + tls_client_hello.getD 45 0 = 6
    ∧ 0 < 256 * tls_client_hello.getD 44 0 + tls_client_hello.getD 45 0
    ∧ (tls_client_hello.drop 46).take 6 = [0x00, 0x2f, 0x00, 0x35, 0x00, 0x0a]
    ∧ tls_client_hello.getD 52 0 = 0x01 ∧ tls_client_hello.getD 53 0 = 0x00
    ∧ (tls_client_hello.drop 56).take 2 = [0x00, 0x0a]
    ∧ (tls_client_hello.drop 64).take 2 = [0x00, 0x0b]
    ∧ 256 * tls_client_hello.getD 3 0 + tls_client_hello.getD 4 0
        ≠ (tls_client_hello.drop 5).length := by
  decide
